import Mathlib

/-!
# Verification of the ai-agent-playground simulation core

Shallow embedding of the simulation substrate of the `ai_agent_playground`
Python package: the spatial grid (`environment/spatial.py`), the physics
engine (`environment/physics.py`), the world (`environment/world.py`), and
the relevant parts of the simulation engine and event system
(`core/engine.py`, `core/events.py`, `core/agent.py`).

Python floats are embedded as rationals (`ℚ`); every comparison the source
performs on a square root `sqrt d2 ⊛ r` is embedded by the equivalent
square-free comparison (`0 ≤ r ∧ d2 ≤ r ^ 2` for `≤`, `0 < r ∧ d2 < r ^ 2`
for `<`), which agrees with the real-valued source semantics at every
input.  Python dictionaries keyed by agent id are embedded either as
association lists in insertion order (the registry) or as total functions
(the grid cells), matching the access patterns of the source.
-/

/-- `core/agent.py` `Position`: 2D position with Euclidean distance. -/
structure Position where
  x : ℚ
  y : ℚ
deriving DecidableEq, Repr

/-- Square of `Position.distance_to` (`core/agent.py` line 18):
`(x₁-x₂)² + (y₁-y₂)²`.  The source returns the square root; all uses in
the verified claims compare the root against a bound, which is expressed
exactly by comparing this square. -/
def distSq (p q : Position) : ℚ :=
  (p.x - q.x) ^ 2 + (p.y - q.y) ^ 2

/-- Embedding of the source test `p.distance_to(q) <= r`: for real `sqrt`,
`sqrt d2 ≤ r ↔ 0 ≤ r ∧ d2 ≤ r²`. -/
def distLe (p q : Position) (r : ℚ) : Prop :=
  0 ≤ r ∧ distSq p q ≤ r ^ 2

/-- Embedding of the source test `p.distance_to(q) < t`: for real `sqrt`,
`sqrt d2 < t ↔ 0 < t ∧ d2 < t²`. -/
def distLt (p q : Position) (t : ℚ) : Prop :=
  0 < t ∧ distSq p q < t ^ 2

instance (p q : Position) (r : ℚ) : Decidable (distLe p q r) := by
  unfold distLe; infer_instance

instance (p q : Position) (t : ℚ) : Decidable (distLt p q t) := by
  unfold distLt; infer_instance

/-- Agent state (`core/agent.py` `AgentState`), restricted to the fields the
physics pass and the world read or write: position, velocity, energy,
health.  (`age`, `active`, `last_action`, `custom_state` are only touched
by the engine loop and are not needed by the verified claims.) -/
structure AgentSt where
  pos : Position
  vel : ℚ × ℚ
  energy : ℚ
  health : ℚ
deriving DecidableEq, Repr

/-- Python `int(q)` on a rational: truncation toward zero. -/
def pyInt (q : ℚ) : ℤ :=
  if 0 ≤ q then ⌊q⌋ else -⌊-q⌋

section Spatial

/-- `environment/spatial.py` `SpatialGrid`: `width`, `height`, `cell_size`
plus the two mutable maps, `grid` (a `defaultdict(set)` from cell coords to
the set of agent ids in that cell, embedded as a total function returning
the cell's id list, `[]` for absent cells) and `agent_positions` (dict from
agent id to its recorded cell). -/
structure SpatialGrid where
  width : ℚ
  height : ℚ
  cell_size : ℚ
  grid : ℤ × ℤ → List String
  agent_positions : String → Option (ℤ × ℤ)

/-- `self.cols = max(1, int(math.ceil(width / cell_size)))` (spatial.py:17). -/
def SpatialGrid.cols (g : SpatialGrid) : ℤ :=
  max 1 ⌈g.width / g.cell_size⌉

/-- `self.rows = max(1, int(math.ceil(height / cell_size)))` (spatial.py:18). -/
def SpatialGrid.rows (g : SpatialGrid) : ℤ :=
  max 1 ⌈g.height / g.cell_size⌉

/-- `SpatialGrid._get_cell_coords` (spatial.py:26-30):
`col = max(0, min(cols-1, int(x / cell_size)))` and likewise for `row`. -/
def get_cell_coords (g : SpatialGrid) (p : Position) : ℤ × ℤ :=
  (max 0 (min (g.cols - 1) (pyInt (p.x / g.cell_size))),
   max 0 (min (g.rows - 1) (pyInt (p.y / g.cell_size))))

/-- `set.add`: append the id to the cell's list unless already present. -/
def listInsert (l : List String) (id : String) : List String :=
  if id ∈ l then l else l ++ [id]

/-- `set.discard`: remove the id from the cell's list. -/
def listDiscard (l : List String) (id : String) : List String :=
  l.filter (fun x => x ≠ id)

/-- `SpatialGrid.add_agent` (spatial.py:32-36), taking the agent's cell
coordinates (computed by the caller from its current position). -/
def add_agent (g : SpatialGrid) (id : String) (c : ℤ × ℤ) : SpatialGrid :=
  { g with
    grid := fun c' => if c' = c then listInsert (g.grid c) id else g.grid c',
    agent_positions := fun i => if i = id then some c else g.agent_positions i }

/-- `SpatialGrid.remove_agent` (spatial.py:38-43). -/
def remove_agent (g : SpatialGrid) (id : String) : SpatialGrid :=
  match g.agent_positions id with
  | some old =>
    { g with
      grid := fun c' => if c' = old then listDiscard (g.grid old) id else g.grid c',
      agent_positions := fun i => if i = id then none else g.agent_positions i }
  | none => g

/-- `SpatialGrid.update_agent` (spatial.py:45-59): no-op when the cell is
unchanged, move between cells otherwise, `add_agent` for a new id. -/
def update_agent (g : SpatialGrid) (id : String) (newC : ℤ × ℤ) : SpatialGrid :=
  match g.agent_positions id with
  | some old =>
    if old = newC then g
    else
      { g with
        grid := fun c' =>
          if c' = old then listDiscard (g.grid old) id
          else if c' = newC then listInsert (g.grid newC) id
          else g.grid c',
        agent_positions := fun i => if i = id then some newC else g.agent_positions i }
  | none => add_agent g id newC

/-- An integer interval `[lo, hi)` as a list, embedding Python's
`range(lo, hi)`. -/
def cellRange (lo hi : ℤ) : List ℤ :=
  (List.range (hi - lo).toNat).map (fun (k : ℕ) => lo + (k : ℤ))

/-- `SpatialGrid.get_nearby_agents` (spatial.py:61-92): scan the
`(2·cell_radius+1)²` block of cells around the query cell (clipped to the
grid), concatenate the cell contents, and drop `exclude_id`.  The source
does *not* filter by exact distance here (its comment notwithstanding);
callers post-filter. -/
def get_nearby_agents (g : SpatialGrid) (p : Position) (r : ℚ)
    (excludeId : Option String) : List String :=
  let cr := ⌈r / g.cell_size⌉
  let ctr := get_cell_coords g p
  let nearby :=
    (cellRange (max 0 (ctr.2 - cr)) (min g.rows (ctr.2 + cr + 1))).flatMap fun row =>
      (cellRange (max 0 (ctr.1 - cr)) (min g.cols (ctr.1 + cr + 1))).flatMap fun col =>
        g.grid (col, row)
  nearby.filter (fun id => excludeId ≠ some id)

end Spatial

section Physics

/-- `environment/physics.py` `Force`: a transient force vector. -/
structure ForceM where
  fx : ℚ
  fy : ℚ
  duration : ℚ
deriving DecidableEq, Repr

/-- Constant parameters of `PhysicsEngine.__init__` (physics.py:22-29). -/
structure PhysParams where
  world_width : ℚ
  world_height : ℚ
  friction : ℚ
  bounce_damping : ℚ
  collision_radius : ℚ
deriving DecidableEq, Repr

/-- `PhysicsEngine(world_width, world_height)`: friction `0.95`, bounce
damping `0.7`, collision radius `2.0` (physics.py:26-29). -/
def mkPhysics (w h : ℚ) : PhysParams :=
  ⟨w, h, 19/20, 7/10, 2⟩

/-- Mutable state of the physics engine: gravity, wind, and the per-agent
force lists (`agent_forces` dict, embedded as a total function returning
`[]` for ids with no entry). -/
structure PhysicsSt where
  gravity : ℚ × ℚ
  wind : ℚ × ℚ
  agent_forces : String → List ForceM

/-- A physics state with no gravity, no wind and no applied forces. -/
def psZero : PhysicsSt :=
  ⟨(0, 0), (0, 0), fun _ => []⟩

/-- `PhysicsEngine._calculate_total_forces` (physics.py:93-104): gravity +
wind + the sum of the agent's applied forces. -/
def calculate_total_forces (ps : PhysicsSt) (id : String) : ℚ × ℚ :=
  (ps.agent_forces id).foldl (fun acc f => (acc.1 + f.fx, acc.2 + f.fy))
    (ps.gravity.1 + ps.wind.1, ps.gravity.2 + ps.wind.2)

/-- `PhysicsEngine._cleanup_forces` (physics.py:231-243): decrement every
force's duration by `1.0` and keep only those still positive. -/
def cleanup_forces (ps : PhysicsSt) (id : String) : PhysicsSt :=
  { ps with
    agent_forces := fun i =>
      if i = id then
        ((ps.agent_forces id).map (fun f => { f with duration := f.duration - 1 })).filter
          (fun f => 0 < f.duration)
      else ps.agent_forces i }

/-- The body of the per-agent loop of `PhysicsEngine.update`
(physics.py:57-85) including `_handle_boundaries` (physics.py:106-147),
given the total force `F` on the agent: integrate velocity, apply
friction, integrate position; clamp the candidate position to the world
rectangle, reflecting (with bounce damping) the components of the agent's
*stored pre-integration* velocity — `_handle_boundaries` reads
`agent.state.velocity`, which the loop has not yet overwritten — and if
any boundary was hit the loop takes the whole reflected velocity
(physics.py:79), otherwise it keeps the integrated one. -/
def integrateOne (pp : PhysParams) (F : ℚ × ℚ) (a : AgentSt) (dt : ℚ) : AgentSt :=
  let vx := (a.vel.1 + F.1 * dt) * pp.friction
  let vy := (a.vel.2 + F.2 * dt) * pp.friction
  let newX := a.pos.x + vx * dt
  let newY := a.pos.y + vy * dt
  let ovx := a.vel.1
  let ovy := a.vel.2
  let bx := if newX < 0 then (0 : ℚ) else if pp.world_width < newX then pp.world_width else newX
  let bvx := if newX < 0 then -ovx * pp.bounce_damping
    else if pp.world_width < newX then -ovx * pp.bounce_damping else ovx
  let collX := newX < 0 ∨ pp.world_width < newX
  let yb := if newY < 0 then (0 : ℚ) else if pp.world_height < newY then pp.world_height else newY
  let bvy := if newY < 0 then -ovy * pp.bounce_damping
    else if pp.world_height < newY then -ovy * pp.bounce_damping else ovy
  let collY := newY < 0 ∨ pp.world_height < newY
  { a with
    pos := ⟨bx, yb⟩,
    vel := if collX ∨ collY then (bvx, bvy) else (vx, vy) }

/-- First phase of `PhysicsEngine.update` (physics.py:56-85): the loop over
`agents.items()` in insertion order, integrating each agent and cleaning up
its expired forces. -/
def integratePhase (pp : PhysParams) (ps : PhysicsSt) (dt : ℚ) :
    List (String × AgentSt) → List (String × AgentSt) × PhysicsSt
  | [] => ([], ps)
  | p :: rest =>
    let F := calculate_total_forces ps p.1
    let a' := integrateOne pp F p.2 dt
    let res := integratePhase pp (cleanup_forces ps p.1) dt rest
    ((p.1, a') :: res.1, res.2)

/-- Exact square root on rationals: embeds `math.sqrt`, with which it
agrees at every perfect-square rational (the only points where the
verified theorems evaluate it). -/
def sqrtQ (q : ℚ) : ℚ :=
  (Int.sqrt q.num : ℚ) / (Nat.sqrt q.den : ℚ)

/-- `PhysicsEngine._resolve_collision` (physics.py:179-229): separate the
pair along the collision normal by half the overlap each, exchange the
normal velocity components scaled by bounce damping, and apply a health
penalty `min(1, 0.1·|v1n − v2n|)` to both. -/
def resolve_collision (pp : PhysParams) (a1 a2 : AgentSt) : AgentSt × AgentSt :=
  let dx := a2.pos.x - a1.pos.x
  let dy := a2.pos.y - a1.pos.y
  let distance := sqrtQ (dx * dx + dy * dy)
  if distance = 0 then (a1, a2)
  else
    let nx := dx / distance
    let ny := dy / distance
    let overlap := pp.collision_radius * 2 - distance
    let separation := overlap / 2
    let v1n := a1.vel.1 * nx + a1.vel.2 * ny
    let v2n := a2.vel.1 * nx + a2.vel.2 * ny
    let newV1n := v2n * pp.bounce_damping
    let newV2n := v1n * pp.bounce_damping
    let impact := |v1n - v2n|
    let damage := min 1 (impact * (1/10))
    ({ a1 with
        pos := ⟨a1.pos.x - nx * separation, a1.pos.y - ny * separation⟩,
        vel := (a1.vel.1 + (newV1n - v1n) * nx, a1.vel.2 + (newV1n - v1n) * ny),
        health := max 0 (a1.health - damage) },
     { a2 with
        pos := ⟨a2.pos.x + nx * separation, a2.pos.y + ny * separation⟩,
        vel := (a2.vel.1 + (newV2n - v2n) * nx, a2.vel.2 + (newV2n - v2n) * ny),
        health := max 0 (a2.health - damage) })

/-- Inner loop of `PhysicsEngine._check_agent_collisions` (physics.py:154-175):
compare the (current state of the) agent at index `i` with each later agent
in turn, resolving collisions in place; the source check
`distance < collision_radius * 2` is embedded square-free via `distLt`. -/
def collideHead (pp : PhysParams) :
    String × AgentSt → List (String × AgentSt) → (String × AgentSt) × List (String × AgentSt)
  | a, [] => (a, [])
  | a, b :: rest =>
    let step :=
      if distLt a.2.pos b.2.pos (pp.collision_radius * 2) then
        let r := resolve_collision pp a.2 b.2
        ((a.1, r.1), (b.1, r.2))
      else (a, b)
    let res := collideHead pp step.1 rest
    (res.1, step.2 :: res.2)

/-- Recursion core of `_check_agent_collisions`; the fuel argument is only
a structural-termination device (`collideHead` preserves the list length,
so fuel `n ≥ length` never runs out). -/
def checkCollisionsGo (pp : PhysParams) : ℕ → List (String × AgentSt) → List (String × AgentSt)
  | 0, l => l
  | _ + 1, [] => []
  | n + 1, a :: rest =>
    let res := collideHead pp a rest
    res.1 :: checkCollisionsGo pp n res.2

/-- `PhysicsEngine._check_agent_collisions` (physics.py:149-177): all
unordered pairs in index order, with in-place mutation (later comparisons
see earlier resolutions). -/
def check_agent_collisions (pp : PhysParams) (l : List (String × AgentSt)) :
    List (String × AgentSt) :=
  checkCollisionsGo pp l.length l

/-- `PhysicsEngine.update` (physics.py:52-91): per-agent integration with
boundary handling and force cleanup, then the pairwise collision pass.
(The returned collision `Event` list is not modelled; no verified claim
reads it.) -/
def physicsUpdate (pp : PhysParams) (ps : PhysicsSt) (agents : List (String × AgentSt))
    (dt : ℚ) : List (String × AgentSt) × PhysicsSt :=
  let r := integratePhase pp ps dt agents
  (check_agent_collisions pp r.1, r.2)

end Physics

section WorldModel

/-- World environment scalars (`environment/world.py` lines 44-48). -/
structure EnvSt where
  time : ℚ
  temperature : ℚ
  humidity : ℚ
  wind_speed : ℚ
  wind_direction : ℚ
deriving DecidableEq, Repr

/-- `random.uniform(a, b)` given the underlying unit draw `u` of
`random.random()`: `a + (b - a)·u`. -/
def pyUniform (a b u : ℚ) : ℚ := a + (b - a) * u

/-- One draw from the ambient RNG stream.  The source calls the *global*,
never-seeded `random` module; the stream of unit draws it will produce is
therefore an external input of the model, not a function of the
configuration. -/
def draw (s : List ℚ) : ℚ × List ℚ := (s.headD (1/2), s.tail)

/-- `World.update_environment` (world.py:179-211): advance time, randomly
perturb temperature, humidity and wind, and — when the wind branch fires —
push the new wind vector `(speed·cos dir, speed·sin dir)` into the physics
engine.  `trig` is the `(math.cos, math.sin)` pair, kept abstract because
`cos`/`sin` are irrational almost everywhere; every theorem below only
evaluates it at `0`, where `trig 0 = (1, 0)` is a hypothesis satisfied by
the true functions.  (Resource-feature regeneration, world.py:203-211,
touches only feature properties, which no verified claim reads; it is
omitted.) -/
def update_environment (env : EnvSt) (ps : PhysicsSt) (dt : ℚ) (s : List ℚ)
    (trig : ℚ → ℚ × ℚ) : EnvSt × PhysicsSt × List ℚ :=
  let time' := env.time + dt
  let d1 := draw s
  let tempRes :=
    if d1.1 < 1/1000 then
      let u := draw d1.2
      (max (-20) (min 40 (env.temperature + pyUniform (-1) 1 u.1)), u.2)
    else (env.temperature, d1.2)
  let d2 := draw tempRes.2
  let humRes :=
    if d2.1 < 1/1000 then
      let u := draw d2.2
      (max 0 (min 1 (env.humidity + pyUniform (-1/20) (1/20) u.1)), u.2)
    else (env.humidity, d2.2)
  let d3 := draw humRes.2
  if d3.1 < 1/100 then
    let u1 := draw d3.2
    let u2 := draw u1.2
    let ws' := max 0 (env.wind_speed + pyUniform (-1/2) (1/2) u1.1)
    let wd' := env.wind_direction + pyUniform (-1/10) (1/10) u2.1
    let cs := trig wd'
    let env' : EnvSt := ⟨time', tempRes.1, humRes.1, ws', wd'⟩
    (env', { ps with wind := (ws' * cs.1, ws' * cs.2) }, u2.2)
  else
    let env' : EnvSt := ⟨time', tempRes.1, humRes.1, env.wind_speed, env.wind_direction⟩
    (env', ps, humRes.2)

/-- `World` (world.py:24-54): spatial grid, physics state, the agent
registry (a dict in insertion order, embedded as an association list) and
the environment scalars.  Static features are omitted (no verified claim
reads them). -/
structure WorldSt where
  width : ℚ
  height : ℚ
  sgrid : SpatialGrid
  ps : PhysicsSt
  agents : List (String × AgentSt)
  env : EnvSt

/-- `World.update_physics` (world.py:168-177): first re-index every
registered agent in the spatial grid at its *current* position, then run
the physics engine (which moves the positions without touching the grid). -/
def world_update_physics (w : WorldSt) (dt : ℚ) : WorldSt :=
  let sg' := w.agents.foldl
    (fun sg p => update_agent sg p.1 (get_cell_coords sg p.2.pos)) w.sgrid
  let r := physicsUpdate (mkPhysics w.width w.height) w.ps w.agents dt
  { w with sgrid := sg', agents := r.1, ps := r.2 }

/-- `World.update` (world.py:213-224): environment update, then physics
update. -/
def worldUpdate (w : WorldSt) (dt : ℚ) (s : List ℚ) (trig : ℚ → ℚ × ℚ) : WorldSt :=
  let e := update_environment w.env w.ps dt s trig
  world_update_physics { w with env := e.1, ps := e.2.1 } dt

/-- Dict lookup `self.agents.get(agent_id)` on the registry association
list. -/
def lookupAgent (l : List (String × AgentSt)) (id : String) : Option AgentSt :=
  (l.find? (fun p => p.1 = id)).map (fun p => p.2)

/-- `World.get_agents_in_radius` (world.py:111-123): query the grid, look
each returned id up in the registry, and keep those whose exact distance
is within the radius.  (The source returns agent objects; the embedding
returns their ids.) -/
def get_agents_in_radius (w : WorldSt) (p : Position) (r : ℚ) : List String :=
  (get_nearby_agents w.sgrid p r none).filterMap fun id =>
    match lookupAgent w.agents id with
    | some st => if distLe p st.pos r then some id else none
    | none => none

/-- The brute-force O(N) neighbour set, written from the spec's words:
every registered agent whose Euclidean distance to `p` is at most `r`.
This is the *specification-side* definition that `get_agents_in_radius`
is compared against. -/
def bruteForceNeighbors (agents : List (String × AgentSt)) (p : Position) (r : ℚ) :
    List String :=
  (agents.filter (fun a => distLe p a.2.pos r)).map (fun a => a.1)

end WorldModel

section EngineModel

/-- The observable phases of one `SimulatorEngine.step` (core/engine.py:107-166),
in source order.  `physicsIntegration` marks a call into
`PhysicsEngine.update` — either directly via `World.update_physics`
(engine.py:119-120) or inside `World.update` (engine.py:151 →
world.py:213-224, which runs `update_environment` and then
`update_physics`). -/
inductive StepPhase where
  | stepStartCallbacks
  | physicsIntegration
  | agentDecision (id : String)
  | removeDeadAgents
  | environmentUpdate
  | advanceCounters
  | stepEndCallbacks
deriving DecidableEq, Repr

/-- Control-flow trace of `SimulatorEngine.step` (engine.py:107-166): early
return when paused (line 109); step-start callbacks (115); physics via
`World.update_physics` when `enable_physics` (119-120); the per-agent
sense/decide/act loop (122-144); removal of dead agents (146-148);
`World.update` (151), which updates the environment and then integrates
physics a second time; counter advance (154-155); step-end callbacks
(162-164). -/
def stepTrace (enablePhysics : Bool) (paused : Bool) (liveAgents : List String) :
    List StepPhase :=
  if paused then []
  else
    [StepPhase.stepStartCallbacks]
      ++ (if enablePhysics then [StepPhase.physicsIntegration] else [])
      ++ liveAgents.map StepPhase.agentDecision
      ++ [StepPhase.removeDeadAgents, StepPhase.environmentUpdate,
          StepPhase.physicsIntegration, StepPhase.advanceCounters,
          StepPhase.stepEndCallbacks]

/-- Per-agent behaviour summary for the exception-flow model of the agent
loop: whether the agent is alive at loop entry, whether its
`sense` call raises, and whether its `update` (decide+act) call raises. -/
structure AgentBeh where
  id : String
  alive : Bool
  senseOk : Bool
  updateOk : Bool
deriving DecidableEq, Repr

/-- Exception flow of the per-agent loop of `SimulatorEngine.step`
(engine.py:122-144), returning the list of agents marked dead (to be
removed) on normal completion, or `Except.error id` when the loop raises.
Per the source: a dead agent is collected and skipped (124-127);
`observations = agent.sense(...)` is called *outside* the `try` block
(line 130), so a raising `sense` propagates; `agent.update(...)` is inside
`try` (133-144), so a raising `update` marks the agent dead and the loop
continues. -/
def stepAgentLoop : List AgentBeh → Except String (List String)
  | [] => Except.ok []
  | a :: rest =>
    if !a.alive then
      match stepAgentLoop rest with
      | Except.ok dead => Except.ok (a.id :: dead)
      | Except.error e => Except.error e
    else if !a.senseOk then Except.error a.id
    else if !a.updateOk then
      match stepAgentLoop rest with
      | Except.ok dead => Except.ok (a.id :: dead)
      | Except.error e => Except.error e
    else stepAgentLoop rest

/-- Engine-registry state observable by `SimulatorEngine.add_agent`:
the agent registry, the world's registry, and the event history. -/
structure EngineReg where
  agents : List String
  worldAgents : List String
  eventHistory : List String
deriving DecidableEq, Repr

/-- `SimulatorEngine.add_agent` (engine.py:60-81).  When the registry
already holds `max_agents` agents the function logs and returns early;
otherwise it registers the agent everywhere and publishes a spawn event.
Python's `add_agent` has no `return value` in either branch — both paths
return `None`, embedded as `Unit`: the second component is the caller's
entire view of the call's outcome. -/
def addAgentE (maxAgents : ℕ) (st : EngineReg) (id : String) : EngineReg × Unit :=
  if maxAgents ≤ st.agents.length then (st, ())
  else
    ({ agents := st.agents ++ [id],
       worldAgents := st.worldAgents ++ [id],
       eventHistory := st.eventHistory ++ ["agent_spawn"] }, ())

/-- `core/events.py` `EventType`. -/
inductive EvType where
  | agentSpawn | agentDeath | agentMove | agentInteract
  | environmentChange | collision | custom
deriving DecidableEq, Repr

/-- `EventManager` state (events.py:45-48): per-type handler lists (dict
embedded as a total function, `[]` for absent types; handlers identified
by the subscribing agent's id) and the bounded event history
(`_max_history = 10000`). -/
structure EventManagerM where
  handlers : EvType → List String
  history : List (EvType × String)

/-- `EventManager.subscribe` (events.py:50-54): append the handler to the
type's list. -/
def emSubscribe (em : EventManagerM) (t : EvType) (h : String) : EventManagerM :=
  { em with handlers := fun t' => if t' = t then em.handlers t ++ [h] else em.handlers t' }

/-- `EventManager.publish` (events.py:64-78): append the event to the
history, truncate to the last `10000`, and deliver to every handler
subscribed to the event's type, in subscription order (a failing handler
is caught, so delivery is unconditional).  Returns the updated state and
the delivery list. -/
def emPublish (em : EventManagerM) (e : EvType × String) : EventManagerM × List String :=
  let h := em.history ++ [e]
  let h' := if 10000 < h.length then h.drop (h.length - 10000) else h
  ({ em with history := h' }, em.handlers e.1)

/-- Engine state for the subscription-lifecycle model: the registry plus
the event manager. -/
structure EngineEvSt where
  agents : List String
  em : EventManagerM

/-- `SimulatorEngine.add_agent` (engine.py:60-81), event-manager view:
capacity check, registration, subscription of the agent itself to
`AGENT_SPAWN` and `ENVIRONMENT_CHANGE`, and publication of the spawn
event. -/
def engineAddAgent (maxAgents : ℕ) (st : EngineEvSt) (id : String) : EngineEvSt :=
  if maxAgents ≤ st.agents.length then st
  else
    let em1 := emSubscribe st.em EvType.agentSpawn id
    let em2 := emSubscribe em1 EvType.environmentChange id
    let em3 := (emPublish em2 (EvType.agentSpawn, id)).1
    { agents := st.agents ++ [id], em := em3 }

/-- `SimulatorEngine.remove_agent` (engine.py:83-100): remove from world
and registry and publish the death event.  No call into
`EventManager.unsubscribe` occurs anywhere in `remove_agent`. -/
def engineRemoveAgent (st : EngineEvSt) (id : String) : EngineEvSt :=
  if id ∈ st.agents then
    let em' := (emPublish st.em (EvType.agentDeath, id)).1
    { agents := st.agents.filter (fun x => x ≠ id), em := em' }
  else st

end EngineModel

section DerivedDefs

/-- The invariant tying the two `SpatialGrid` maps together: an id is a
member of cell `c`'s set precisely when `agent_positions` records `c` for
it.  In particular every recorded agent is in exactly one cell and an
unrecorded id is in none. -/
def GInv (g : SpatialGrid) : Prop :=
  ∀ id c, id ∈ g.grid c ↔ g.agent_positions id = some c

/-- The cell block scanned by `get_nearby_agents`: exactly the bounds of
the two `range(...)` loops of spatial.py:74-81. -/
def inScanBlock (g : SpatialGrid) (p : Position) (r : ℚ) (c : ℤ × ℤ) : Prop :=
  (max 0 ((get_cell_coords g p).1 - ⌈r / g.cell_size⌉) ≤ c.1 ∧
    c.1 < min g.cols ((get_cell_coords g p).1 + ⌈r / g.cell_size⌉ + 1)) ∧
  (max 0 ((get_cell_coords g p).2 - ⌈r / g.cell_size⌉) ≤ c.2 ∧
    c.2 < min g.rows ((get_cell_coords g p).2 + ⌈r / g.cell_size⌉ + 1))

/-- An empty 100×100 spatial grid with the default cell size 50. -/
def sgEmpty : SpatialGrid := ⟨100, 100, 50, fun _ => [], fun _ => none⟩

/-- `sgEmpty` after `SpatialGrid.add_agent` for agent `"a"` at cell
`(0, 0)`. -/
def sgA : SpatialGrid := add_agent sgEmpty "a" (0, 0)

/-- Initial environment scalars of `World.__init__` (world.py:44-48). -/
def envInit : EnvSt := ⟨0, 20, 1/2, 0, 0⟩

/-- Concrete 100×100 world: one agent `"a"` at `(49, 0)` moving right at
speed 10, indexed in the grid at its current cell `(0, 0)`. -/
def wC2 : WorldSt :=
  ⟨100, 100, sgA, psZero, [("a", ⟨⟨49, 0⟩, (10, 0), 100, 100⟩)], envInit⟩

/-- Concrete 100×100 world: one agent `"a"` at `(10, 10)` with velocity
`(1, 0)`. -/
def wC4 : WorldSt :=
  ⟨100, 100, sgEmpty, psZero, [("a", ⟨⟨10, 10⟩, (1, 0), 100, 100⟩)], envInit⟩

/-- Concrete 100×100 world: one agent `"a"` at rest at `(10, 10)`. -/
def wC9 : WorldSt :=
  ⟨100, 100, sgEmpty, psZero, [("a", ⟨⟨10, 10⟩, (0, 0), 100, 100⟩)], envInit⟩

/-- A trigonometric oracle satisfying `trig 0 = (cos 0, sin 0) = (1, 0)`. -/
def trivTrig : ℚ → ℚ × ℚ := fun _ => (1, 0)

/-- An event manager with no subscriptions and empty history. -/
def emEmpty : EventManagerM := ⟨fun _ => [], []⟩

end DerivedDefs

section Claim7

/-- C7: in a 100×100 world with physics defaults, for one agent at
`(95, 50)` with velocity `(10, 0)`, no applied forces, gravity and wind
zero, a single physics update with `dt = 1` yields position `x = 100`
exactly and a strictly negative x-velocity, namely the reflected
pre-friction component scaled by the bounce-damping factor `0.7 < 1`. -/
theorem physics_boundary_bounce_scenario :
    (physicsUpdate (mkPhysics 100 100) psZero
        [("a", ⟨⟨95, 50⟩, (10, 0), 100, 100⟩)] 1).1
      = [("a", ⟨⟨100, 50⟩, (-(10 * (7/10)), 0), 100, 100⟩)] ∧
    (-(10 * (7/10)) : ℚ) < 0 ∧ (mkPhysics 100 100).bounce_damping < 1 := by
  refine ⟨?_, by norm_num, by norm_num [mkPhysics]⟩
  norm_num [physicsUpdate, integratePhase, calculate_total_forces, psZero,
    integrateOne, cleanup_forces, check_agent_collisions, checkCollisionsGo,
    collideHead, mkPhysics]

end Claim7

section Claim3

/-- If no later agent is within the collision threshold of the head agent,
the inner collision loop changes nothing. -/
theorem collideHead_far (pp : PhysParams) (a : String × AgentSt)
    (l : List (String × AgentSt))
    (h : ∀ b ∈ l, ¬ distLt a.2.pos b.2.pos (pp.collision_radius * 2)) :
    collideHead pp a l = (a, l) := by
  induction l with
  | nil => rfl
  | cons b rest ih =>
    have hb := h b (by simp)
    have hrest : ∀ c ∈ rest, ¬ distLt a.2.pos c.2.pos (pp.collision_radius * 2) :=
      fun c hc => h c (by simp [hc])
    simp [collideHead, hb, ih hrest]

/-- If all pairs are separated by at least the collision threshold, the
collision pass is the identity. -/
theorem checkCollisionsGo_far (pp : PhysParams) (n : ℕ) (l : List (String × AgentSt))
    (h : l.Pairwise (fun a b => ¬ distLt a.2.pos b.2.pos (pp.collision_radius * 2))) :
    checkCollisionsGo pp n l = l := by
  induction n generalizing l with
  | zero => rfl
  | succ n ih =>
    cases l with
    | nil => rfl
    | cons a rest =>
      rcases List.pairwise_cons.mp h with ⟨ha, hrest⟩
      simp [checkCollisionsGo, collideHead_far pp a rest ha, ih rest hrest]

/-- The boundary-handling phase clamps each coordinate into the world
rectangle (for nonnegative world dimensions). -/
theorem integrateOne_pos_in_bounds (pp : PhysParams) (F : ℚ × ℚ) (a : AgentSt) (dt : ℚ)
    (hw : 0 ≤ pp.world_width) (hh : 0 ≤ pp.world_height) :
    0 ≤ (integrateOne pp F a dt).pos.x ∧ (integrateOne pp F a dt).pos.x ≤ pp.world_width ∧
    0 ≤ (integrateOne pp F a dt).pos.y ∧ (integrateOne pp F a dt).pos.y ≤ pp.world_height := by
  simp only [integrateOne]
  split_ifs with h1 h2 h3 h4 h5 h6 h7 h8 <;>
    refine ⟨by linarith, by linarith, by linarith, by linarith⟩

/-- Every agent state produced by the integration phase is the image of
some input state under `integrateOne`. -/
theorem integratePhase_mem (pp : PhysParams) (ps : PhysicsSt) (dt : ℚ)
    (agents : List (String × AgentSt)) :
    ∀ p ∈ (integratePhase pp ps dt agents).1,
      ∃ F a₀, p.2 = integrateOne pp F a₀ dt := by
  induction agents generalizing ps with
  | nil => simp [integratePhase]
  | cons q rest ih =>
    intro p hp
    simp only [integratePhase, List.mem_cons] at hp
    rcases hp with hp | hp
    · exact ⟨calculate_total_forces ps q.1, q.2, by rw [hp]⟩
    · exact ih (cleanup_forces ps q.1) p hp

/-- C3 (amended): after `PhysicsEngine.update`, every agent position lies
in `[0, worldWidth] × [0, worldHeight]` *provided the pairwise collision
pass fires on no pair* (no two post-integration agents within twice the
collision radius).  The unamended claim is false: the collision resolver
runs after boundary clamping and can displace agents out of bounds
(`collision_pushes_agent_out_of_bounds`). -/
theorem physics_update_positions_in_bounds (w h : ℚ) (hw : 0 ≤ w) (hh : 0 ≤ h)
    (ps : PhysicsSt) (agents : List (String × AgentSt)) (dt : ℚ)
    (hsep : ((integratePhase (mkPhysics w h) ps dt agents).1).Pairwise
      (fun a b => ¬ distLt a.2.pos b.2.pos ((mkPhysics w h).collision_radius * 2))) :
    ∀ p ∈ (physicsUpdate (mkPhysics w h) ps agents dt).1,
      0 ≤ p.2.pos.x ∧ p.2.pos.x ≤ w ∧ 0 ≤ p.2.pos.y ∧ p.2.pos.y ≤ h := by
  intro p hp
  have hid : (physicsUpdate (mkPhysics w h) ps agents dt).1
      = (integratePhase (mkPhysics w h) ps dt agents).1 := by
    simp only [physicsUpdate, check_agent_collisions]
    exact checkCollisionsGo_far _ _ _ hsep
  rw [hid] at hp
  obtain ⟨F, a₀, ha⟩ := integratePhase_mem (mkPhysics w h) ps dt agents p hp
  have := integrateOne_pos_in_bounds (mkPhysics w h) F a₀ dt (by simpa [mkPhysics] using hw)
    (by simpa [mkPhysics] using hh)
  rw [ha]
  simpa [mkPhysics] using this

/-- Witness for `physics_update_positions_in_bounds` at a concrete input:
a 100×100 world, one agent at `(5, 5)` at rest, `dt = 1`. -/
theorem physics_update_positions_in_bounds_witness :
    0 ≤ (AgentSt.mk ⟨5, 5⟩ (0, 0) 100 100).pos.x ∧
    (AgentSt.mk ⟨5, 5⟩ (0, 0) 100 100).pos.x ≤ 100 ∧
    0 ≤ (AgentSt.mk ⟨5, 5⟩ (0, 0) 100 100).pos.y ∧
    (AgentSt.mk ⟨5, 5⟩ (0, 0) 100 100).pos.y ≤ 100 :=
  physics_update_positions_in_bounds 100 100 (by norm_num) (by norm_num) psZero
    [("a", ⟨⟨5, 5⟩, (0, 0), 100, 100⟩)] 1
    (by norm_num [integratePhase, calculate_total_forces, psZero, integrateOne,
      cleanup_forces, mkPhysics])
    ("a", ⟨⟨5, 5⟩, (0, 0), 100, 100⟩)
    (by norm_num [physicsUpdate, integratePhase, calculate_total_forces, psZero,
      integrateOne, cleanup_forces, check_agent_collisions, checkCollisionsGo,
      collideHead, mkPhysics])

/-- C3 counterexample: two resting agents at `(0, 50)` and `(1, 50)` in a
100×100 world; the collision resolver separates them along the x-axis and
pushes the first agent to `x = -3/2 < 0`, outside the world rectangle,
after `PhysicsEngine.update` returns. -/
theorem collision_pushes_agent_out_of_bounds :
    (physicsUpdate (mkPhysics 100 100) psZero
        [("a", ⟨⟨0, 50⟩, (0, 0), 100, 100⟩), ("b", ⟨⟨1, 50⟩, (0, 0), 100, 100⟩)] 1).1
      = [("a", ⟨⟨-3/2, 50⟩, (0, 0), 100, 100⟩), ("b", ⟨⟨5/2, 50⟩, (0, 0), 100, 100⟩)] ∧
    (-3/2 : ℚ) < 0 := by
  refine ⟨?_, by norm_num⟩
  norm_num [physicsUpdate, integratePhase, calculate_total_forces, psZero,
    integrateOne, cleanup_forces, check_agent_collisions, checkCollisionsGo,
    collideHead, resolve_collision, distLt, distSq, sqrtQ, Int.sqrt, Nat.sqrt,
    mkPhysics]

end Claim3

section Claim5

/-- C5 counterexample: with physics enabled (the default) and one live
agent, a single `SimulatorEngine.step` contains *two* physics
integrations, and the first one precedes the agent decision phase — the
claim's "exactly once, after the agent decision phase" is false. -/
theorem step_runs_physics_twice :
    (stepTrace true false ["a"]).count StepPhase.physicsIntegration = 2 ∧
    stepTrace true false ["a"]
      = [StepPhase.stepStartCallbacks, StepPhase.physicsIntegration,
         StepPhase.agentDecision "a", StepPhase.removeDeadAgents,
         StepPhase.environmentUpdate, StepPhase.physicsIntegration,
         StepPhase.advanceCounters, StepPhase.stepEndCallbacks] ∧
    (2 : ℕ) ≠ 1 := by
  refine ⟨by decide, by decide, by decide⟩

/-- C5 (amended): `SimulatorEngine.step` integrates physics twice per tick
when `enable_physics` is true (once *before* the agent decision phase via
`World.update_physics`, engine.py:119-120, and once after, inside
`World.update`, engine.py:151) and once when it is false; in all cases the
*final* physics integration comes after every agent decision of the tick
and is the last integration of the tick. -/
theorem step_trace_physics_placement (ep : Bool) (ids : List String) :
    ((stepTrace ep false ids).count StepPhase.physicsIntegration
        = if ep then 2 else 1) ∧
    ∃ l₁ l₂, stepTrace ep false ids = l₁ ++ [StepPhase.physicsIntegration] ++ l₂ ∧
      (∀ id ∈ ids, StepPhase.agentDecision id ∈ l₁) ∧
      StepPhase.physicsIntegration ∉ l₂ := by
  constructor
  · have hdec : (ids.map StepPhase.agentDecision).count StepPhase.physicsIntegration = 0 := by
      rw [List.count_eq_zero]
      intro h
      rcases List.mem_map.mp h with ⟨id, _, hid⟩
      exact StepPhase.noConfusion hid
    cases ep <;>
      simp [stepTrace, List.count_append, hdec, List.count_cons, List.count_singleton]
  · use [StepPhase.stepStartCallbacks]
        ++ (if ep then [StepPhase.physicsIntegration] else [])
        ++ ids.map StepPhase.agentDecision
        ++ [StepPhase.removeDeadAgents, StepPhase.environmentUpdate],
      [StepPhase.advanceCounters, StepPhase.stepEndCallbacks]
    refine ⟨?_, ?_, ?_⟩
    · cases ep <;> simp [stepTrace]
    · intro id hid
      have hm : StepPhase.agentDecision id ∈ ids.map StepPhase.agentDecision :=
        List.mem_map.mpr (Exists.intro id ⟨hid, rfl⟩)
      simp [hm]
    · decide

end Claim5

section Claim6

/-- C6 counterexample: an alive agent whose `sense` raises makes the
per-agent loop of `SimulatorEngine.step` propagate the exception to the
caller — `agent.sense(self.world)` (engine.py:130) sits *outside* the
`try` block, so the claim that failures anywhere in an agent's per-tick
processing (including `sense`) are caught is false. -/
theorem step_propagates_sense_failure :
    stepAgentLoop [⟨"a", true, false, true⟩] = Except.error "a" := by
  rfl

/-- C6 (amended): provided no agent's `sense` raises, the per-agent loop
of `SimulatorEngine.step` completes the tick for every agent and returns
normally, marking for removal exactly the agents that were dead at loop
entry together with those whose `decide`/`act` (`agent.update`) raised —
an `update` failure is caught and never aborts the tick.  (A raising
`sense` still propagates, per `step_propagates_sense_failure`.) -/
theorem step_catches_update_failures (agents : List AgentBeh)
    (h : ∀ a ∈ agents, a.senseOk = true) :
    stepAgentLoop agents
      = Except.ok ((agents.filter (fun a => !a.alive || !a.updateOk)).map AgentBeh.id) := by
  induction agents with
  | nil => rfl
  | cons a rest ih =>
    have ha : a.senseOk = true := h a (by simp)
    have hrest := ih (fun b hb => h b (by simp [hb]))
    by_cases hal : a.alive = true
    · by_cases hup : a.updateOk = true
      · simp [stepAgentLoop, hal, ha, hup, hrest]
      · simp only [Bool.not_eq_true] at hup
        simp [stepAgentLoop, hal, ha, hup, hrest]
    · simp only [Bool.not_eq_true] at hal
      simp [stepAgentLoop, hal, hrest]

/-- Witness for `step_catches_update_failures`: a dead agent, an agent
whose `update` raises, and a healthy agent — the loop returns normally
and marks the first two for removal. -/
theorem step_catches_update_failures_witness :
    stepAgentLoop [⟨"a", false, true, true⟩, ⟨"b", true, true, false⟩, ⟨"c", true, true, true⟩]
      = Except.ok ["a", "b"] := by
  have := step_catches_update_failures
    [⟨"a", false, true, true⟩, ⟨"b", true, true, false⟩, ⟨"c", true, true, true⟩]
    (by decide)
  simpa using this

end Claim6

section Claim8

/-- C8 (amended): when the registry already holds `max_agents` agents,
`SimulatorEngine.add_agent` rejects the addition non-fatally — the
registry, the World and the event history are left unchanged and the
function returns normally — but the rejection is *not* observable via a
return status: the function returns `None` on this path exactly as on the
success path. -/
theorem add_agent_at_capacity_rejects (m : ℕ) (st : EngineReg) (id : String)
    (h : m ≤ st.agents.length) :
    addAgentE m st id = (st, ()) := by
  simp [addAgentE, h]

/-- Witness for `add_agent_at_capacity_rejects`: capacity 1 with one agent
registered. -/
theorem add_agent_at_capacity_rejects_witness :
    addAgentE 1 ⟨["a"], ["a"], ["agent_spawn"]⟩ "b"
      = (⟨["a"], ["a"], ["agent_spawn"]⟩, ()) :=
  add_agent_at_capacity_rejects 1 ⟨["a"], ["a"], ["agent_spawn"]⟩ "b" (by decide)

/-- C8 counterexample: the return value of a rejected `add_agent` call is
identical to that of an accepted one (`None` either way, `Unit` in the
embedding), even though only the accepted call changes the engine state —
the rejection is therefore not observable to the caller via any return
status, refuting that conjunct of the claim. -/
theorem add_agent_rejection_not_observable :
    (addAgentE 1 ⟨["a"], ["a"], ["agent_spawn"]⟩ "b").2
      = (addAgentE 1 ⟨[], [], []⟩ "b").2 ∧
    (addAgentE 1 ⟨["a"], ["a"], ["agent_spawn"]⟩ "b").1
      = ⟨["a"], ["a"], ["agent_spawn"]⟩ ∧
    (addAgentE 1 ⟨[], [], []⟩ "b").1 ≠ ⟨[], [], []⟩ := by
  refine ⟨rfl, by decide, by decide⟩

end Claim8

section Claim10

/-- C10: removing an agent via `SimulatorEngine.remove_agent` leaves every
handler list of the `EventManager` unchanged — `remove_agent`
(engine.py:83-100) never calls `EventManager.unsubscribe` — so an agent
that was added (and thereby subscribed to `AGENT_SPAWN` and
`ENVIRONMENT_CHANGE`) remains subscribed after its removal, and any event
of those types published afterwards is still delivered to it. -/
theorem remove_agent_keeps_subscriptions (maxA : ℕ) (st : EngineEvSt) (id : String)
    (hcap : st.agents.length < maxA) :
    (∀ t, (engineRemoveAgent (engineAddAgent maxA st id) id).em.handlers t
        = (engineAddAgent maxA st id).em.handlers t) ∧
    id ∈ (engineRemoveAgent (engineAddAgent maxA st id) id).em.handlers EvType.agentSpawn ∧
    id ∈ (engineRemoveAgent (engineAddAgent maxA st id) id).em.handlers
        EvType.environmentChange ∧
    ∀ tgt, id ∈ (emPublish (engineRemoveAgent (engineAddAgent maxA st id) id).em
        (EvType.environmentChange, tgt)).2 := by
  have hlt : ¬ (maxA ≤ st.agents.length) := not_le.mpr hcap
  have hmem : id ∈ (engineAddAgent maxA st id).agents := by
    simp [engineAddAgent, hlt]
  have hrem : (engineRemoveAgent (engineAddAgent maxA st id) id).em.handlers
      = (engineAddAgent maxA st id).em.handlers := by
    simp [engineRemoveAgent, hmem, emPublish]
  have hspawn : id ∈ (engineAddAgent maxA st id).em.handlers EvType.agentSpawn := by
    simp [engineAddAgent, hlt, emPublish, emSubscribe]
  have henv : id ∈ (engineAddAgent maxA st id).em.handlers EvType.environmentChange := by
    simp [engineAddAgent, hlt, emPublish, emSubscribe]
  refine ⟨fun t => by rw [hrem], by rw [hrem]; exact hspawn, by rw [hrem]; exact henv, ?_⟩
  intro tgt
  simp only [emPublish]
  rw [hrem]
  exact henv

/-- Witness for `remove_agent_keeps_subscriptions`: capacity 1, empty
engine, agent `"a"` added then removed; an `ENVIRONMENT_CHANGE` event
published afterwards is still delivered to `"a"`. -/
theorem remove_agent_keeps_subscriptions_witness :
    "a" ∈ (engineRemoveAgent (engineAddAgent 1 ⟨[], emEmpty⟩ "a") "a").em.handlers
        EvType.agentSpawn ∧
    "a" ∈ (engineRemoveAgent (engineAddAgent 1 ⟨[], emEmpty⟩ "a") "a").em.handlers
        EvType.environmentChange ∧
    "a" ∈ (emPublish (engineRemoveAgent (engineAddAgent 1 ⟨[], emEmpty⟩ "a") "a").em
        (EvType.environmentChange, "tgt")).2 := by
  have h := remove_agent_keeps_subscriptions 1 ⟨[], emEmpty⟩ "a" (by decide)
  exact ⟨h.2.1, h.2.2.1, h.2.2.2 "tgt"⟩

end Claim10

section Claim4

/-- At `dt = 0`, for an agent whose position is inside the world
rectangle, the integration step leaves the position unchanged and
multiplies the velocity componentwise by the friction factor. -/
theorem integrateOne_dt_zero (pp : PhysParams) (F : ℚ × ℚ) (a : AgentSt)
    (hx0 : 0 ≤ a.pos.x) (hxw : a.pos.x ≤ pp.world_width)
    (hy0 : 0 ≤ a.pos.y) (hyh : a.pos.y ≤ pp.world_height) :
    integrateOne pp F a 0
      = { a with vel := (a.vel.1 * pp.friction, a.vel.2 * pp.friction) } := by
  have nx1 : ¬ (a.pos.x < 0) := not_lt.mpr hx0
  have nx2 : ¬ (pp.world_width < a.pos.x) := not_lt.mpr hxw
  have ny1 : ¬ (a.pos.y < 0) := not_lt.mpr hy0
  have ny2 : ¬ (pp.world_height < a.pos.y) := not_lt.mpr hyh
  simp [integrateOne, nx1, nx2, ny1, ny2]

/-- The integration phase at `dt = 0` over in-bounds agents: positions,
energies and healths unchanged, velocities scaled by friction. -/
theorem integratePhase_dt_zero (pp : PhysParams) (ps : PhysicsSt)
    (agents : List (String × AgentSt))
    (hb : ∀ p ∈ agents, 0 ≤ p.2.pos.x ∧ p.2.pos.x ≤ pp.world_width ∧
      0 ≤ p.2.pos.y ∧ p.2.pos.y ≤ pp.world_height) :
    (integratePhase pp ps 0 agents).1
      = agents.map (fun p => (p.1,
          { p.2 with vel := (p.2.vel.1 * pp.friction, p.2.vel.2 * pp.friction) })) := by
  induction agents generalizing ps with
  | nil => rfl
  | cons q rest ih =>
    have hq := hb q (by simp)
    simp only [integratePhase, List.map_cons]
    rw [integrateOne_dt_zero pp _ q.2 hq.1 hq.2.1 hq.2.2.1 hq.2.2.2,
      ih (cleanup_forces ps q.1) (fun p hp => hb p (by simp [hp]))]

/-- C4 (amended): `World.update` with `dt = 0` leaves every agent's
position and energy (and health) unchanged and multiplies every agent's
velocity by the friction coefficient `0.95` — so the velocity is *not*
unchanged unless it is zero — provided every agent is inside the world
rectangle and no two agents are within the collision threshold.  This
holds for every RNG stream and trigonometric oracle.  The unamended claim
is false: see `world_tick_zero_changes_velocity`. -/
theorem world_update_dt_zero (w : WorldSt) (s : List ℚ) (trig : ℚ → ℚ × ℚ)
    (hb : ∀ p ∈ w.agents, 0 ≤ p.2.pos.x ∧ p.2.pos.x ≤ w.width ∧
      0 ≤ p.2.pos.y ∧ p.2.pos.y ≤ w.height)
    (hsep : w.agents.Pairwise (fun a b =>
      ¬ distLt a.2.pos b.2.pos ((mkPhysics w.width w.height).collision_radius * 2))) :
    (worldUpdate w 0 s trig).agents
      = w.agents.map (fun p => (p.1,
          { p.2 with vel := (p.2.vel.1 * (mkPhysics w.width w.height).friction,
                             p.2.vel.2 * (mkPhysics w.width w.height).friction) })) := by
  have hb' : ∀ p ∈ w.agents, 0 ≤ p.2.pos.x ∧
      p.2.pos.x ≤ (mkPhysics w.width w.height).world_width ∧
      0 ≤ p.2.pos.y ∧ p.2.pos.y ≤ (mkPhysics w.width w.height).world_height := by
    simpa [mkPhysics] using hb
  have hphase := integratePhase_dt_zero (mkPhysics w.width w.height)
    (update_environment w.env w.ps 0 s trig).2.1 w.agents hb'
  have hmap : (w.agents.map (fun p => (p.1,
      { p.2 with vel := (p.2.vel.1 * (mkPhysics w.width w.height).friction,
                         p.2.vel.2 * (mkPhysics w.width w.height).friction) }))).Pairwise
      (fun a b => ¬ distLt a.2.pos b.2.pos ((mkPhysics w.width w.height).collision_radius * 2)) := by
    rw [List.pairwise_map]
    exact hsep
  simp only [worldUpdate, world_update_physics, physicsUpdate, check_agent_collisions]
  rw [hphase, checkCollisionsGo_far _ _ _ hmap]

/-- Witness for `world_update_dt_zero`: the concrete world `wC4` (one
in-bounds agent with velocity `(1, 0)`), the stream `[1,1,1]` and the
trivial trig oracle. -/
theorem world_update_dt_zero_witness :
    (worldUpdate wC4 0 [1, 1, 1] trivTrig).agents
      = wC4.agents.map (fun p => (p.1,
          { p.2 with vel := (p.2.vel.1 * (mkPhysics wC4.width wC4.height).friction,
                             p.2.vel.2 * (mkPhysics wC4.width wC4.height).friction) })) :=
  world_update_dt_zero wC4 [1, 1, 1] trivTrig
    (by
      intro p hp
      simp only [wC4, List.mem_singleton] at hp
      subst hp
      norm_num [wC4])
    (by simp [wC4])

/-- C4 counterexample: on the world `wC4` (one agent, velocity `(1, 0)`,
everything in bounds, no forces), `World.update` with `dt = 0` changes the
agent's velocity from `(1, 0)` to `(0.95, 0)` — the friction factor is
applied even at `dt = 0`, so velocities are not left unchanged. -/
theorem world_tick_zero_changes_velocity :
    (worldUpdate wC4 0 [1, 1, 1] trivTrig).agents.map (fun p => (p.1, p.2.vel))
      = [("a", ((19/20 : ℚ), (0 : ℚ)))] ∧
    wC4.agents.map (fun p => (p.1, p.2.vel)) = [("a", ((1 : ℚ), (0 : ℚ)))] ∧
    ((19/20 : ℚ), (0 : ℚ)) ≠ ((1 : ℚ), (0 : ℚ)) := by
  refine ⟨?_, by norm_num [wC4], by norm_num⟩
  norm_num [worldUpdate, update_environment, draw, pyUniform, world_update_physics,
    physicsUpdate, integratePhase, calculate_total_forces, integrateOne,
    cleanup_forces, check_agent_collisions, checkCollisionsGo, collideHead,
    wC4, psZero, envInit, trivTrig, mkPhysics]

end Claim4

section Claim9

/-- C9: the trajectory produced by `World.update` is *not* a function of
the configuration and the agents: two different draw sequences of the
global RNG — which `SimulatorEngine` never seeds; `config.random_seed` is
declared (engine.py:29) but read nowhere — yield different velocities for
the same initial world, the same `dt` and the same agents.  Stream
`[1,1,1]` fires no environment branch; stream `[1,1,0,1,1/2]` fires the
wind branch (world.py:193-201), setting wind speed `1/2` with direction
`0`, and the new wind accelerates the agent during the physics pass of the
same `World.update` call.  The hypothesis `trig 0 = (1, 0)` is satisfied
by the real `(cos, sin)`. -/
theorem rng_stream_changes_trajectory (trig : ℚ → ℚ × ℚ) (h : trig 0 = (1, 0)) :
    (worldUpdate wC9 1 [1, 1, 1] trig).agents.map (fun p => (p.1, p.2.vel))
      = [("a", ((0 : ℚ), (0 : ℚ)))] ∧
    (worldUpdate wC9 1 [1, 1, 0, 1, 1/2] trig).agents.map (fun p => (p.1, p.2.vel))
      = [("a", ((19/40 : ℚ), (0 : ℚ)))] ∧
    ((0 : ℚ), (0 : ℚ)) ≠ ((19/40 : ℚ), (0 : ℚ)) := by
  refine ⟨?_, ?_, by norm_num [Prod.ext_iff]⟩
  · norm_num [worldUpdate, update_environment, draw, pyUniform, world_update_physics,
      physicsUpdate, integratePhase, calculate_total_forces, integrateOne,
      cleanup_forces, check_agent_collisions, checkCollisionsGo, collideHead,
      wC9, psZero, envInit, mkPhysics]
  · have h0 : (0 : ℚ) + (-1/10 + (1/10 - -1/10) * (1/2)) = 0 := by norm_num
    norm_num [worldUpdate, update_environment, draw, pyUniform, world_update_physics,
      physicsUpdate, integratePhase, calculate_total_forces, integrateOne,
      cleanup_forces, check_agent_collisions, checkCollisionsGo, collideHead,
      wC9, psZero, envInit, mkPhysics, h]

/-- Witness for `rng_stream_changes_trajectory` at the trivial trig
oracle. -/
theorem rng_stream_changes_trajectory_witness :
    (worldUpdate wC9 1 [1, 1, 1] trivTrig).agents.map (fun p => (p.1, p.2.vel))
      = [("a", ((0 : ℚ), (0 : ℚ)))] ∧
    (worldUpdate wC9 1 [1, 1, 0, 1, 1/2] trivTrig).agents.map (fun p => (p.1, p.2.vel))
      = [("a", ((19/40 : ℚ), (0 : ℚ)))] ∧
    ((0 : ℚ), (0 : ℚ)) ≠ ((19/40 : ℚ), (0 : ℚ)) :=
  rng_stream_changes_trajectory trivTrig rfl

end Claim9

section Claim2

/-- Membership in `listInsert`. -/
theorem mem_listInsert (l : List String) (id i : String) :
    i ∈ listInsert l id ↔ i = id ∨ i ∈ l := by
  unfold listInsert
  split <;> rename_i h
  · constructor
    · exact fun hh => Or.inr hh
    · rintro (rfl | hh)
      · exact h
      · exact hh
  · simp [or_comm]

/-- Membership in `listDiscard`. -/
theorem mem_listDiscard (l : List String) (id i : String) :
    i ∈ listDiscard l id ↔ i ∈ l ∧ i ≠ id := by
  simp [listDiscard]

/-- `update_agent` only rewrites the two maps; the cell geometry (width,
height, cell size) is untouched, so cell coordinates computed against the
updated grid agree with those computed against the original. -/
theorem get_cell_coords_update_agent (g : SpatialGrid) (id : String) (c : ℤ × ℤ)
    (q : Position) :
    get_cell_coords (update_agent g id c) q = get_cell_coords g q := by
  cases h : g.agent_positions id with
  | none =>
    simp only [update_agent, h, add_agent]
    rfl
  | some old =>
    by_cases hc : old = c
    · simp only [update_agent, h, if_pos hc]
    · simp only [update_agent, h, if_neg hc]
      rfl

/-- After `update_agent g id c`, the recorded cell of `id` is `c`. -/
theorem update_agent_positions_self (g : SpatialGrid) (id : String) (c : ℤ × ℤ) :
    (update_agent g id c).agent_positions id = some c := by
  cases h : g.agent_positions id with
  | none => simp [update_agent, h, add_agent]
  | some old =>
    by_cases hc : old = c
    · simp only [update_agent, h, if_pos hc]
      exact congrArg some hc
    · simp [update_agent, h, if_neg hc]

/-- `update_agent` leaves other agents' recorded cells unchanged. -/
theorem update_agent_positions_other (g : SpatialGrid) (id i : String) (hne : i ≠ id)
    (c : ℤ × ℤ) :
    (update_agent g id c).agent_positions i = g.agent_positions i := by
  cases h : g.agent_positions id with
  | none => simp [update_agent, h, add_agent, hne]
  | some old =>
    by_cases hc : old = c
    · simp only [update_agent, h, if_pos hc]
    · simp [update_agent, h, if_neg hc, hne]

/-- `update_agent` preserves the one-cell-per-agent invariant. -/
theorem GInv_update_agent (g : SpatialGrid) (hG : GInv g) (id : String) (c : ℤ × ℤ) :
    GInv (update_agent g id c) := by
  intro i c'
  cases h : g.agent_positions id with
  | none =>
    simp only [update_agent, h, add_agent]
    by_cases hi : i = id
    · subst hi
      by_cases hc : c' = c
      · subst hc
        simp [mem_listInsert]
      · have hnot : i ∉ g.grid c' := fun hm => by
          rw [hG i c'] at hm
          rw [hm] at h
          exact Option.noConfusion h
        simp [hc, hnot, Ne.symm hc]
    · by_cases hc : c' = c
      · subst hc
        simp [mem_listInsert, hi, hG i c']
      · simp [hc, hG i c', hi]
  | some old =>
    by_cases hco : old = c
    · simp only [update_agent, h, if_pos hco]
      exact hG i c'
    · simp only [update_agent, h, if_neg hco]
      by_cases hi : i = id
      · subst hi
        by_cases h1 : c' = old
        · subst h1
          simp [mem_listDiscard]
          exact fun hh => hco hh.symm
        · by_cases h2 : c' = c
          · subst h2
            simp [h1, mem_listInsert]
          · have hnot : i ∉ g.grid c' := fun hm => by
              rw [hG i c'] at hm
              rw [hm] at h
              exact h1 (Option.some.inj h)
            simp [h1, h2, hnot, Ne.symm h2]
      · by_cases h1 : c' = old
        · subst h1
          simp [mem_listDiscard, hi, hG i c']
        · by_cases h2 : c' = c
          · subst h2
            simp [h1, mem_listInsert, hi, hG i c']
          · simp [h1, h2, hG i c', hi]

/-- The grid-refresh fold of `World.update_physics` preserves the cell
geometry. -/
theorem refresh_fold_coords (l : List (String × AgentSt)) :
    ∀ (sg : SpatialGrid) (q : Position),
      get_cell_coords
          (l.foldl (fun sg p => update_agent sg p.1 (get_cell_coords sg p.2.pos)) sg) q
        = get_cell_coords sg q := by
  induction l with
  | nil => intro sg q; rfl
  | cons a rest ih =>
    intro sg q
    simp only [List.foldl_cons]
    rw [ih, get_cell_coords_update_agent]

/-- The refresh fold does not touch the records of ids outside the list. -/
theorem refresh_fold_positions_other (l : List (String × AgentSt)) :
    ∀ (sg : SpatialGrid) (i : String), i ∉ l.map Prod.fst →
      (l.foldl (fun sg p => update_agent sg p.1 (get_cell_coords sg p.2.pos)) sg).agent_positions i
        = sg.agent_positions i := by
  induction l with
  | nil => intro sg i _; rfl
  | cons a rest ih =>
    intro sg i hi
    simp only [List.map_cons, List.mem_cons, not_or] at hi
    simp only [List.foldl_cons]
    rw [ih _ _ hi.2, update_agent_positions_other _ _ _ hi.1]

/-- After the refresh fold, every listed agent's recorded cell is the cell
of its current (pre-physics) position; ids are distinct, as keys of the
Python registry dict are. -/
theorem refresh_fold_positions (l : List (String × AgentSt)) :
    ∀ (sg : SpatialGrid), (l.map Prod.fst).Nodup →
      ∀ p ∈ l,
        (l.foldl (fun sg p => update_agent sg p.1 (get_cell_coords sg p.2.pos)) sg).agent_positions p.1
          = some (get_cell_coords sg p.2.pos) := by
  induction l with
  | nil =>
    intro sg _ p hp
    exact absurd hp (List.not_mem_nil p)
  | cons a rest ih =>
    intro sg hnd p hp
    simp only [List.map_cons, List.nodup_cons] at hnd
    simp only [List.foldl_cons]
    rcases List.mem_cons.mp hp with rfl | hp2
    · rw [refresh_fold_positions_other rest _ _ hnd.1, update_agent_positions_self]
    · rw [ih _ hnd.2 p hp2, get_cell_coords_update_agent]

/-- The refresh fold preserves the one-cell-per-agent invariant. -/
theorem refresh_fold_GInv (l : List (String × AgentSt)) :
    ∀ (sg : SpatialGrid), GInv sg →
      GInv (l.foldl (fun sg p => update_agent sg p.1 (get_cell_coords sg p.2.pos)) sg) := by
  induction l with
  | nil => intro sg hG; exact hG
  | cons a rest ih =>
    intro sg hG
    simp only [List.foldl_cons]
    exact ih _ (GInv_update_agent sg hG a.1 (get_cell_coords sg a.2.pos))

/-- C2 (amended): after `World.update` returns, the spatial grid still
satisfies the one-cell-per-agent invariant, and every registered agent is
recorded in exactly one cell — namely the cell of its position at the
*start of the physics pass* (the refresh at world.py:170-172 precedes the
integration, so the indexed cell lags the post-physics position; the
original claim's "post-physics position" is refuted by
`grid_cell_stale_after_update`). -/
theorem world_update_spatial_index (w : WorldSt) (dt : ℚ) (s : List ℚ)
    (trig : ℚ → ℚ × ℚ) (hG : GInv w.sgrid) (hnd : (w.agents.map Prod.fst).Nodup) :
    GInv (worldUpdate w dt s trig).sgrid ∧
    ∀ p ∈ w.agents,
      (worldUpdate w dt s trig).sgrid.agent_positions p.1
          = some (get_cell_coords w.sgrid p.2.pos) ∧
      ∀ c, p.1 ∈ (worldUpdate w dt s trig).sgrid.grid c
          ↔ c = get_cell_coords w.sgrid p.2.pos := by
  have hsg : (worldUpdate w dt s trig).sgrid
      = w.agents.foldl (fun sg p => update_agent sg p.1 (get_cell_coords sg p.2.pos)) w.sgrid := by
    simp only [worldUpdate, world_update_physics]
  constructor
  · rw [hsg]
    exact refresh_fold_GInv w.agents w.sgrid hG
  · intro p hp
    have hpos := refresh_fold_positions w.agents w.sgrid hnd p hp
    refine ⟨by rw [hsg]; exact hpos, ?_⟩
    intro c
    rw [hsg, refresh_fold_GInv w.agents w.sgrid hG p.1 c, hpos]
    constructor
    · intro hh
      exact (Option.some.inj hh).symm
    · intro hh
      exact congrArg some hh.symm

/-- The concrete grid of `wC2` satisfies the one-cell invariant. -/
theorem GInv_wC2 : GInv wC2.sgrid := by
  intro id c
  simp only [wC2, sgA, add_agent, sgEmpty]
  by_cases hid : id = "a" <;> by_cases hc : c = (0, 0)
  · subst hid; subst hc
    simp [listInsert]
  · subst hid
    simp [hc, eq_comm, listInsert]
  · subst hc
    simp [hid, listInsert]
  · simp [hid, hc, listInsert]

/-- Witness for `world_update_spatial_index` on the concrete world `wC2`:
after the tick, agent `"a"` is recorded at the cell of its pre-physics
position `(49, 0)`, and its grid membership singles out that cell. -/
theorem world_update_spatial_index_witness :
    (worldUpdate wC2 1 [1, 1, 1] trivTrig).sgrid.agent_positions "a"
        = some (get_cell_coords wC2.sgrid (Position.mk 49 0)) ∧
    ("a" ∈ (worldUpdate wC2 1 [1, 1, 1] trivTrig).sgrid.grid (0, 0)
        ↔ (0, 0) = get_cell_coords wC2.sgrid (Position.mk 49 0)) := by
  have h := world_update_spatial_index wC2 1 [1, 1, 1] trivTrig GInv_wC2 (by simp [wC2])
  have hm := h.2 ("a", ⟨⟨49, 0⟩, (10, 0), 100, 100⟩) (by simp [wC2])
  exact ⟨hm.1, hm.2 (0, 0)⟩

/-- C2 counterexample: on `wC2` the physics pass moves agent `"a"` from
`(49, 0)` to `(58.5, 0)`, which lies in cell `(1, 0)`, but after
`World.update` returns the grid still records (and contains) `"a"` in cell
`(0, 0)` — the indexed cell is computed from the *pre*-physics position,
not the post-physics one. -/
theorem grid_cell_stale_after_update :
    (worldUpdate wC2 1 [1, 1, 1] trivTrig).sgrid.agent_positions "a" = some (0, 0) ∧
    (worldUpdate wC2 1 [1, 1, 1] trivTrig).agents.map (fun p => (p.1, p.2.pos))
      = [("a", (⟨117/2, 0⟩ : Position))] ∧
    get_cell_coords (worldUpdate wC2 1 [1, 1, 1] trivTrig).sgrid ⟨117/2, 0⟩ = (1, 0) ∧
    ((0, 0) : ℤ × ℤ) ≠ (1, 0) ∧
    "a" ∉ (worldUpdate wC2 1 [1, 1, 1] trivTrig).sgrid.grid (1, 0) := by
  have hag : wC2.agents = [("a", ⟨⟨49, 0⟩, (10, 0), 100, 100⟩)] := rfl
  have h1 : get_cell_coords wC2.sgrid ⟨49, 0⟩ = (0, 0) := by
    norm_num [wC2, sgA, add_agent, sgEmpty, get_cell_coords, pyInt,
      SpatialGrid.cols, SpatialGrid.rows]
  have hpos0 : wC2.sgrid.agent_positions "a" = some (0, 0) := by
    simp [wC2, sgA, add_agent, sgEmpty]
  have hupd : update_agent wC2.sgrid "a" (0, 0) = wC2.sgrid := by
    simp [update_agent, hpos0]
  have hsg2 : (worldUpdate wC2 1 [1, 1, 1] trivTrig).sgrid = wC2.sgrid := by
    simp only [worldUpdate, world_update_physics, hag, List.foldl_cons, List.foldl_nil]
    rw [h1, hupd]
  have hagents : (worldUpdate wC2 1 [1, 1, 1] trivTrig).agents
      = [("a", ⟨⟨117/2, 0⟩, (19/2, 0), 100, 100⟩)] := by
    simp only [worldUpdate, world_update_physics]
    norm_num [update_environment, draw, physicsUpdate, integratePhase,
      calculate_total_forces, integrateOne, cleanup_forces, check_agent_collisions,
      checkCollisionsGo, collideHead, wC2, psZero, envInit, mkPhysics, trivTrig]
  have h2 : get_cell_coords wC2.sgrid ⟨117/2, 0⟩ = (1, 0) := by
    norm_num [wC2, sgA, add_agent, sgEmpty, get_cell_coords, pyInt,
      SpatialGrid.cols, SpatialGrid.rows]
  refine ⟨by rw [hsg2, hpos0], by rw [hagents]; simp, by rw [hsg2]; exact h2,
    by decide, ?_⟩
  rw [hsg2]
  simp [wC2, sgA, add_agent, sgEmpty]

end Claim2

section Claim1

/-- From `a² ≤ r²` with `r ≥ 0`, bound `a` on both sides. -/
theorem sq_le_imp_bounds (a r : ℚ) (h : a ^ 2 ≤ r ^ 2) (hr : 0 ≤ r) :
    -r ≤ a ∧ a ≤ r :=
  ⟨by nlinarith, by nlinarith⟩

/-- Floors grow by at most the ceiling of the increment. -/
theorem floor_le_floor_add_ceil (a t : ℚ) : ⌊a + t⌋ ≤ ⌊a⌋ + ⌈t⌉ := by
  have h1 : a + t < ((⌊a⌋ + ⌈t⌉ + 1 : ℤ) : ℚ) := by
    push_cast
    have h2 := Int.lt_floor_add_one a
    have h3 := Int.le_ceil t
    linarith
  have h4 : ⌊a + t⌋ < ⌊a⌋ + ⌈t⌉ + 1 := Int.floor_lt.mpr h1
  omega

/-- Under the `max 0` clamp of `_get_cell_coords`, Python's
truncation-toward-zero `int()` agrees with the mathematical floor: they
differ only on negative arguments, which both clamp to `0`. -/
theorem clamp_pyInt_eq (M : ℤ) (hM : 0 ≤ M) (q : ℚ) :
    max 0 (min M (pyInt q)) = max 0 (min M ⌊q⌋) := by
  unfold pyInt
  split_ifs with h
  · rfl
  · push_neg at h
    have h1 : (0 : ℤ) ≤ ⌊-q⌋ := Int.floor_nonneg.mpr (by linarith)
    have h2 : ⌊q⌋ ≤ 0 := Int.floor_nonpos (le_of_lt h)
    omega

/-- One axis of the scan-block argument: if two coordinates are within `r`
of each other, their clamped cell indices are within
`cell_radius = ⌈r / cell_size⌉` of each other. -/
theorem cell_axis_bound (cs : ℚ) (hcs : 0 < cs) (M : ℤ) (hM : 0 ≤ M)
    (xp xq r : ℚ) (hr : 0 ≤ r) (h : (xq - xp) ^ 2 ≤ r ^ 2) :
    max 0 (min M (pyInt (xp / cs))) - ⌈r / cs⌉ ≤ max 0 (min M (pyInt (xq / cs))) ∧
    max 0 (min M (pyInt (xq / cs))) ≤ max 0 (min M (pyInt (xp / cs))) + ⌈r / cs⌉ := by
  obtain ⟨hl, hu⟩ := sq_le_imp_bounds (xq - xp) r h hr
  rw [clamp_pyInt_eq M hM, clamp_pyInt_eq M hM]
  have hq1 : xq / cs ≤ (xp + r) / cs := (div_le_div_iff_of_pos_right hcs).mpr (by linarith)
  have hq2 : xp / cs ≤ (xq + r) / cs := (div_le_div_iff_of_pos_right hcs).mpr (by linarith)
  rw [← div_add_div_same] at hq1 hq2
  have f1 : ⌊xq / cs⌋ ≤ ⌊xp / cs⌋ + ⌈r / cs⌉ :=
    le_trans (Int.floor_le_floor hq1) (floor_le_floor_add_ceil _ _)
  have f2 : ⌊xp / cs⌋ ≤ ⌊xq / cs⌋ + ⌈r / cs⌉ :=
    le_trans (Int.floor_le_floor hq2) (floor_le_floor_add_ceil _ _)
  have hcr : (0 : ℤ) ≤ ⌈r / cs⌉ := Int.ceil_nonneg (by positivity)
  constructor <;> omega

/-- The geometric heart of C1: if `q` is within Euclidean distance `r` of
the query point `p`, then `q`'s (clamped) grid cell lies inside the block
of cells `get_nearby_agents` scans around `p`'s cell. -/
theorem cell_in_scan_block (g : SpatialGrid) (hcs : 0 < g.cell_size)
    (p q : Position) (r : ℚ) (hr : 0 ≤ r) (h : distSq p q ≤ r ^ 2) :
    inScanBlock g p r (get_cell_coords g q) := by
  have hx : (q.x - p.x) ^ 2 ≤ r ^ 2 := by
    have h0 := sq_nonneg (p.y - q.y)
    simp only [distSq] at h
    nlinarith
  have hy : (q.y - p.y) ^ 2 ≤ r ^ 2 := by
    have h0 := sq_nonneg (p.x - q.x)
    simp only [distSq] at h
    nlinarith
  have hcols : (1 : ℤ) ≤ g.cols := le_max_left _ _
  have hrows : (1 : ℤ) ≤ g.rows := le_max_left _ _
  have hbx := cell_axis_bound g.cell_size hcs (g.cols - 1) (by omega) p.x q.x r hr hx
  have hby := cell_axis_bound g.cell_size hcs (g.rows - 1) (by omega) p.y q.y r hr hy
  have hcr : (0 : ℤ) ≤ ⌈r / g.cell_size⌉ := Int.ceil_nonneg (by positivity)
  unfold inScanBlock get_cell_coords
  simp only []
  refine ⟨⟨?_, ?_⟩, ?_, ?_⟩ <;> omega

/-- Membership in the embedded `range(lo, hi)`. -/
theorem mem_cellRange (lo hi x : ℤ) : x ∈ cellRange lo hi ↔ lo ≤ x ∧ x < hi := by
  unfold cellRange
  constructor
  · intro hm
    obtain ⟨k, hk, hke⟩ := List.mem_map.mp hm
    rw [List.mem_range] at hk
    have hkc : ((k : ℤ)) < ((hi - lo).toNat : ℤ) := Int.ofNat_lt.mpr hk
    rw [Int.toNat_eq_max] at hkc
    have hk0 : (0 : ℤ) ≤ (k : ℤ) := Int.natCast_nonneg k
    constructor
    · rw [← hke]; omega
    · rw [← hke]; omega
  · rintro ⟨h1, h2⟩
    apply List.mem_map.mpr
    have e1 : ((x - lo).toNat : ℤ) = x - lo := Int.toNat_of_nonneg (by omega)
    refine ⟨(x - lo).toNat, List.mem_range.mpr ?_, ?_⟩
    · apply Int.ofNat_lt.mp
      rw [e1, Int.toNat_eq_max]
      omega
    · rw [e1]
      omega

/-- Membership in `get_nearby_agents`: the id is not the excluded one and
lies in some scanned cell. -/
theorem mem_get_nearby_agents (g : SpatialGrid) (p : Position) (r : ℚ)
    (ex : Option String) (id : String) :
    id ∈ get_nearby_agents g p r ex
      ↔ ex ≠ some id ∧ ∃ c, inScanBlock g p r c ∧ id ∈ g.grid c := by
  unfold get_nearby_agents
  simp only [List.mem_filter, List.mem_flatMap, mem_cellRange, decide_eq_true_eq]
  constructor
  · rintro ⟨⟨row, hrow, col, hcol, hmem⟩, hex⟩
    exact ⟨hex, (col, row), ⟨⟨hcol.1, hcol.2⟩, hrow.1, hrow.2⟩, hmem⟩
  · rintro ⟨hex, ⟨col, row⟩, ⟨⟨h1, h2⟩, h3, h4⟩, hmem⟩
    exact ⟨⟨row, ⟨h3, h4⟩, col, ⟨h1, h2⟩, hmem⟩, hex⟩

/-- With distinct registry keys, the dict lookup of a registered pair
returns exactly that pair's state. -/
theorem lookupAgent_eq_of_mem (l : List (String × AgentSt))
    (hnd : (l.map Prod.fst).Nodup) (id : String) (st : AgentSt)
    (hm : (id, st) ∈ l) :
    lookupAgent l id = some st := by
  induction l with
  | nil => exact absurd hm (List.not_mem_nil _)
  | cons a rest ih =>
    simp only [List.map_cons, List.nodup_cons] at hnd
    rcases List.mem_cons.mp hm with heq | hm2
    · rw [← heq]
      simp [lookupAgent]
    · have hne : ¬ (a.1 = id) := by
        intro hh
        exact hnd.1 (hh ▸ List.mem_map.mpr ⟨(id, st), hm2, rfl⟩)
    
      unfold lookupAgent
      rw [List.find?_cons_of_neg _ (by simpa using hne)]
      exact ih hnd.2 hm2

/-- A successful dict lookup returns a registered pair. -/
theorem lookupAgent_mem (l : List (String × AgentSt)) (id : String) (st : AgentSt)
    (h : lookupAgent l id = some st) : (id, st) ∈ l := by
  unfold lookupAgent at h
  cases hf : l.find? (fun p => p.1 = id) with
  | none => rw [hf] at h; exact Option.noConfusion h
  | some a =>
    rw [hf] at h
    have ha : a ∈ l := List.mem_of_find?_eq_some hf
    have hp : a.1 = id := by
      have := List.find?_some hf
      simpa using this
    have hst : a.2 = st := by simpa using h
    have heq : a = (id, st) := by
      cases a
      simp only at hp hst
      rw [hp, hst]
    rwa [heq] at ha

/-- C1: with the spatial grid canonically indexing every registered agent
at its current position (each id recorded at — and contained in — the cell
of its position), for every query point `p` and radius `r ≥ 0`:
`SpatialGrid.get_nearby_agents(p, r)` returns a superset of the agents
within Euclidean distance `r` of `p`, and `World.get_agents_in_radius(p, r)`
— the exact-distance filter of that superset — contains exactly the
brute-force O(N) neighbour set `{agent | distance(p, agent.position) ≤ r}`. -/
theorem query_radius_exact (w : WorldSt) (p : Position) (r : ℚ)
    (hcs : 0 < w.sgrid.cell_size) (hr : 0 ≤ r) (hG : GInv w.sgrid)
    (hnd : (w.agents.map Prod.fst).Nodup)
    (hcanon : ∀ id, w.sgrid.agent_positions id
        = (lookupAgent w.agents id).map (fun st => get_cell_coords w.sgrid st.pos)) :
    (∀ id st, lookupAgent w.agents id = some st → distSq p st.pos ≤ r ^ 2 →
        id ∈ get_nearby_agents w.sgrid p r none) ∧
    (∀ id, id ∈ get_agents_in_radius w p r ↔ id ∈ bruteForceNeighbors w.agents p r) := by
  have hsup : ∀ id st, lookupAgent w.agents id = some st → distSq p st.pos ≤ r ^ 2 →
      id ∈ get_nearby_agents w.sgrid p r none := by
    intro id st hlk hd
    rw [mem_get_nearby_agents]
    refine ⟨by simp, get_cell_coords w.sgrid st.pos,
      cell_in_scan_block w.sgrid hcs p st.pos r hr hd, ?_⟩
    rw [hG id (get_cell_coords w.sgrid st.pos), hcanon id, hlk]
    rfl
  refine ⟨hsup, ?_⟩
  intro id
  unfold get_agents_in_radius bruteForceNeighbors
  constructor
  · intro hmem
    rw [List.mem_filterMap] at hmem
    obtain ⟨id', hid', heq⟩ := hmem
    cases hlk : lookupAgent w.agents id' with
    | none =>
      simp only [hlk] at heq
      exact Option.noConfusion heq
    | some st =>
      simp only [hlk] at heq
      by_cases hdl : distLe p st.pos r
      · rw [if_pos hdl] at heq
        have hii : id' = id := Option.some.inj heq
        subst hii
        have hm := lookupAgent_mem _ _ _ hlk
        exact List.mem_map.mpr ⟨(id', st), List.mem_filter.mpr ⟨hm, by simpa using hdl⟩, rfl⟩
      · rw [if_neg hdl] at heq
        exact absurd heq (by simp)
  · intro hmem
    rw [List.mem_map] at hmem
    obtain ⟨a, ha, rfl⟩ := hmem
    rw [List.mem_filter] at ha
    have hdl : distLe p a.2.pos r := by simpa using ha.2
    have hlk : lookupAgent w.agents a.1 = some a.2 :=
      lookupAgent_eq_of_mem _ hnd _ _ ha.1
    have hnear := hsup a.1 a.2 hlk hdl.2
    rw [List.mem_filterMap]
    refine ⟨a.1, hnear, ?_⟩
    simp only [hlk, if_pos hdl]

/-- Witness for `query_radius_exact`: the concrete world `wC2` (one agent
`"a"` at `(49, 0)`, indexed at its cell `(0, 0)`), query point `(50, 0)`,
radius `10`: the grid query returns `"a"` and the exact filter agrees with
the brute-force neighbour set. -/
theorem query_radius_exact_witness :
    "a" ∈ get_nearby_agents wC2.sgrid ⟨50, 0⟩ 10 none ∧
    ("a" ∈ get_agents_in_radius wC2 ⟨50, 0⟩ 10
      ↔ "a" ∈ bruteForceNeighbors wC2.agents ⟨50, 0⟩ 10) := by
  have h2 : lookupAgent wC2.agents "a" = some ⟨⟨49, 0⟩, (10, 0), 100, 100⟩ := by
    simp [wC2, lookupAgent]
  have hcanon : ∀ id, wC2.sgrid.agent_positions id
      = (lookupAgent wC2.agents id).map (fun st => get_cell_coords wC2.sgrid st.pos) := by
    intro id
    by_cases hid : id = "a"
    · subst hid
      rw [h2]
      norm_num [wC2, sgA, add_agent, sgEmpty, get_cell_coords, pyInt,
        SpatialGrid.cols, SpatialGrid.rows]
    · have hne : ¬ ("a" = id) := fun hh => hid hh.symm
      have hlk : lookupAgent wC2.agents id = none := by
        simp [wC2, lookupAgent, hne]
      rw [hlk]
      simp [wC2, sgA, add_agent, sgEmpty, hid]
  have h := query_radius_exact wC2 ⟨50, 0⟩ 10
    (by norm_num [wC2, sgA, add_agent, sgEmpty]) (by norm_num) GInv_wC2
    (by simp [wC2]) hcanon
  exact ⟨h.1 "a" ⟨⟨49, 0⟩, (10, 0), 100, 100⟩ h2 (by norm_num [distSq]), h.2 "a"⟩

end Claim1
